import Mathlib

/-!
Verification of the RTGraph acquisition-and-buffering core and of its
presentation shell (`rtgraph/ui/mainWindow.py`).

The repository snapshot contains only the shell (`MainWindow`); the core
components it drives — the `Worker`, the handoff queue, the per-channel ring
buffers — are declared by the spec (§3–§4.6) but their source is not part of
the snapshot.  Those components are therefore modelled from the spec, each
with a doc comment saying so; `MainWindow` itself is embedded directly from
the Python source.  Samples are modelled with exact integers (`Int`) in place
of machine floats, and rates with exact rationals (`Rat`): the claims under
study concern ordering, windowing and control flow, never rounding.
-/

namespace RTGraph

/-- The last `n` elements of a list, in order (all of `l` when `l` is shorter
than `n`).  This is the "sliding window of the most recent `n` values" used
throughout the ring-buffer model. -/
def lastN (n : Nat) (l : List α) : List α :=
  (l.reverse.take n).reverse

/-- Modelled from the spec: §3 "Ring Buffer" and §4.5.  The repository
snapshot has no ring-buffer source (only the spec and the shell's calls), so
the structure follows the spec's words: a fixed capacity and the retained
window of samples, oldest first.  The `data` field holds the values actually
pushed so far (the spec leaves the empty-state convention open, §8);
`read` returns them oldest-to-newest. -/
structure RingBuffer (α : Type) where
  capacity : Nat
  data : List α
deriving Repr, DecidableEq

namespace RingBuffer

/-- A freshly allocated buffer: requested capacity, no samples yet. -/
def empty (c : Nat) : RingBuffer α := ⟨c, []⟩

/-- Modelled from the spec: §4.5 `push` — append the new value, evicting the
oldest once capacity is exceeded (FIFO overwrite). -/
def push (b : RingBuffer α) (v : α) : RingBuffer α :=
  { b with data := lastN b.capacity (b.data ++ [v]) }

/-- Modelled from the spec: §4.5 `read` — the retained samples,
oldest-to-newest. -/
def read (b : RingBuffer α) : List α := b.data

/-- Push a whole sequence of values in order. -/
def pushAll (b : RingBuffer α) (vs : List α) : RingBuffer α :=
  vs.foldl push b

end RingBuffer

/-- Modelled from the spec: §3 "Sample Tuple" — a timestamp and one value per
channel. -/
structure SampleTuple where
  time : Int
  values : List Int
deriving Repr, DecidableEq

/-- Modelled from the spec: §2/§3 — the source types offered by the source
catalog (hardware-serial and synthetic-test, named as in
`rtgraph.core.constants.SourceType`). -/
inductive SourceType where
  | serial
  | simulator
deriving Repr, DecidableEq

/-- Modelled from the spec: §3 "Source Descriptor". -/
structure SourceDescriptor where
  type : SourceType
  endpoint : String
  rate : Rat
deriving Repr, DecidableEq

/-- The environment the source catalog reports: which endpoints are attached
and which rates the selected source supports (spec §4.1). -/
structure Env where
  endpoints : List String
  rates : List Rat
deriving Repr, DecidableEq

/-- Modelled from the spec: §4.2/§4.6 — whether opening the sample source
described by `d` succeeds: the endpoint must be available and the rate
supported ("fails ... if the Sample Source fails to open (endpoint
unavailable or unsupported rate)"). -/
def openOk (env : Env) (d : SourceDescriptor) : Bool :=
  decide (d.endpoint ∈ env.endpoints) && decide (d.rate ∈ env.rates)

/-- Modelled from the spec: §3 "Worker session state" status enum. -/
inductive Status where
  | Idle
  | Running
  | Stopping
deriving Repr, DecidableEq

/-- Modelled from the spec: §3/§4.6 — the Worker owns the session state, the
handoff queue (a FIFO list, head = oldest), the shared timestamp ring buffer
and one ring buffer per channel. -/
structure Worker where
  status : Status
  channelCount : Nat
  config : SourceDescriptor
  exportEnabled : Bool
  queue : List SampleTuple
  timeBuffer : RingBuffer Int
  valueBuffers : List (RingBuffer Int)
deriving Repr, DecidableEq

/-- Push one value into each channel buffer, channel `i` receiving
`values[i]`; a channel with no corresponding value is left unchanged, extra
values are ignored (spec §3: the channel count is fixed per session, so in a
well-formed session the two lists have equal length). -/
def pushValues : List (RingBuffer Int) → List Int → List (RingBuffer Int)
  | [], _ => []
  | b :: bs, [] => b :: bs
  | b :: bs, v :: vs => b.push v :: pushValues bs vs

namespace Worker

/-- A Worker as first constructed, before any session is started (the
`Worker()` built in `MainWindow.__init__` / `MainWindow.start`): Idle, no
channels, no queued or buffered samples. -/
def initial : Worker :=
  { status := Status.Idle
    channelCount := 0
    config := { type := SourceType.serial, endpoint := "", rate := 0 }
    exportEnabled := false
    queue := []
    timeBuffer := RingBuffer.empty 0
    valueBuffers := [] }

/-- Modelled from the spec: §4.3/§4.4 — the Reader Loop pushes a sample tuple
onto the handoff queue, in arrival order. -/
def enqueue (w : Worker) (s : SampleTuple) : Worker :=
  { w with queue := w.queue ++ [s] }

/-- Modelled from the spec: §4.6 `drain` — push one tuple's timestamp and
per-channel values into the ring buffers. -/
def applySample (w : Worker) (s : SampleTuple) : Worker :=
  { w with
    timeBuffer := w.timeBuffer.push s.time
    valueBuffers := pushValues w.valueBuffers s.values }

/-- Modelled from the spec: §4.4/§4.6 `drain` — remove everything currently
queued, push each tuple into the ring buffers in arrival order, and return
the drained tuples.  (`Worker.consume_queue` in the source's naming.) -/
def drain (w : Worker) : Worker × List SampleTuple :=
  (w.queue.foldl applySample { w with queue := [] }, w.queue)

/-- The state after a drain, discarding the returned tuples (the shape in
which `MainWindow._update_plot` calls it). -/
def consumeQueue (w : Worker) : Worker :=
  (drain w).1

/-- Modelled from the spec: §4.6 `start(descriptor, channel_count,
window_size, export_enabled)` — fails (returns false, no state change) if
already Running or if the sample source fails to open; on success allocates
fresh ring buffers at `window_size`, empties the queue, and transitions to
Running. -/
def start (env : Env) (w : Worker) (d : SourceDescriptor) (nch wsize : Nat)
    (exp : Bool) : Worker × Bool :=
  if w.status = Status.Running then (w, false)
  else if openOk env d then
    ({ status := Status.Running
       channelCount := nch
       config := d
       exportEnabled := exp
       queue := []
       timeBuffer := RingBuffer.empty wsize
       valueBuffers := List.replicate nch (RingBuffer.empty wsize) }, true)
  else (w, false)

/-- Modelled from the spec: §4.6 `stop` — no-op if already Idle; otherwise
discards any unconsumed queue contents and transitions to Idle, retaining the
buffers' last contents for display. -/
def stop (w : Worker) : Worker :=
  if w.status = Status.Idle then w
  else { w with status := Status.Idle, queue := [] }

/-- Modelled from the spec: §4.6 `resize` (`Worker.reset_buffers` in the
source's naming) — reallocate all ring buffers at the new capacity, clearing
history; permitted in either state. -/
def resetBuffers (w : Worker) (n : Nat) : Worker :=
  { w with
    timeBuffer := RingBuffer.empty n
    valueBuffers := w.valueBuffers.map (fun _ => RingBuffer.empty n) }

/-- Modelled from the spec: §4.6 `read_time` (`get_time_buffer`). -/
def readTime (w : Worker) : List Int :=
  w.timeBuffer.read

/-- Modelled from the spec: §4.6 `read_channel` (`get_values_buffer`). -/
def readChannel (w : Worker) (i : Nat) : List Int :=
  (w.valueBuffers.getD i (RingBuffer.empty 0)).read

/-- Modelled from the spec: §4.6 — the number of channel lines
(`get_lines`). -/
def getLines (w : Worker) : Nat :=
  w.channelCount

/-- Modelled from the spec: §4.6 `is_running`. -/
def isRunning (w : Worker) : Bool :=
  decide (w.status = Status.Running)

end Worker

/-- One event of the producer/consumer interaction of spec §4.4: the Reader
Loop pushing one tuple, or the consumer draining. -/
inductive Op where
  | push (s : SampleTuple)
  | drain
deriving Repr, DecidableEq

/-- One step of the interaction, also accumulating (as a history variable)
the tuples that have reached the ring buffers so far. -/
def stepOp : Worker × List SampleTuple → Op → Worker × List SampleTuple
  | (w, log), Op.push s => (w.enqueue s, log)
  | (w, log), Op.drain => ((Worker.drain w).1, log ++ (Worker.drain w).2)

/-- Run an interleaving of pushes and drains from a given state. -/
def runOps (w : Worker) (log : List SampleTuple) (ops : List Op) :
    Worker × List SampleTuple :=
  ops.foldl stepOp (w, log)

/-- The tuples an interleaving pushes, in arrival order. -/
def pushesOf : List Op → List SampleTuple
  | [] => []
  | Op.push s :: ops => s :: pushesOf ops
  | Op.drain :: ops => pushesOf ops

/-- A Running worker at the start of a session: window size `c`, `nch`
channels, everything empty — the state `Worker.start` produces. -/
def initWorker (c nch : Nat) : Worker :=
  { status := Status.Running
    channelCount := nch
    config := { type := SourceType.serial, endpoint := "", rate := 0 }
    exportEnabled := false
    queue := []
    timeBuffer := RingBuffer.empty c
    valueBuffers := List.replicate nch (RingBuffer.empty c) }

/-- The buffer part of the drain invariant: every ring buffer has capacity
`c` and holds the sliding window of the tuples drained so far (`log`), the
timestamp buffer over the timestamps and channel `j`'s buffer over the `j`-th
values. -/
def BufInv (c nch : Nat) (w : Worker) (log : List SampleTuple) : Prop :=
  w.timeBuffer.capacity = c ∧
  w.timeBuffer.data = lastN c (log.map SampleTuple.time) ∧
  w.valueBuffers.length = nch ∧
  ∀ j, j < nch →
    (w.valueBuffers.getD j (RingBuffer.empty 0)).capacity = c ∧
    (w.valueBuffers.getD j (RingBuffer.empty 0)).data =
      lastN c (log.map (fun s => s.values.getD j 0))

/-- A Python `ValueError`, the only exception the embedded shell paths can
raise (`float` applied to a non-numeric string in `MainWindow.start`). -/
inductive PyError where
  | valueError
deriving Repr, DecidableEq

/-- Numeric value of a list of decimal digit characters. -/
def digitsVal (cs : List Char) : Nat :=
  cs.foldl (fun n c => 10 * n + (c.toNat - 48)) 0

/-- Surrounding whitespace, which Python's `float()` ignores. -/
def trimChars (cs : List Char) : List Char :=
  ((cs.dropWhile Char.isWhitespace).reverse.dropWhile Char.isWhitespace).reverse

/-- Python's `float()` restricted to the decimal literals this UI produces
(optional surrounding whitespace, an optional sign, digits, an optional
point): `none` models the `ValueError` raised on a string that is not a
float literal — in particular `parsePyFloat "" = none`, since `float("")`
raises. -/
def parsePyFloat (s : String) : Option Rat :=
  match trimChars s.data with
  | [] => none
  | c :: cs =>
    let body := if c = '-' || c = '+' then cs else c :: cs
    let ip := body.takeWhile (fun x => x ≠ '.')
    let fp := (body.dropWhile (fun x => x ≠ '.')).drop 1
    if body.isEmpty then none
    else if ip.isEmpty && fp.isEmpty then none
    else if ip.all Char.isDigit && fp.all Char.isDigit then
      let mag : Rat :=
        if fp.isEmpty then (digitsVal ip : Rat)
        else (digitsVal ip : Rat) + (digitsVal fp : Rat) / (10 : Rat) ^ fp.length
      some (if c = '-' then -mag else mag)
    else none

/-- The enabled/disabled switches of the UI controls touched by
`MainWindow._enable_ui`, plus the sample-size spin box (which that method
never touches). -/
structure UIFlags where
  portEnabled : Bool
  speedEnabled : Bool
  startEnabled : Bool
  fileEnabled : Bool
  sourceEnabled : Bool
  pauseEnabled : Bool
  spinBoxEnabled : Bool
deriving Repr, DecidableEq

/-- Embeds `MainWindow._enable_ui(enabled)` (mainWindow.py lines 92–104): sets the
port, speed, start, file-export and source controls to `enabled`, the pause
button to `not enabled`, and leaves the spin box untouched. -/
def enableUi (enabled : Bool) (f : UIFlags) : UIFlags :=
  { portEnabled := enabled
    speedEnabled := enabled
    startEnabled := enabled
    fileEnabled := enabled
    sourceEnabled := enabled
    pauseEnabled := !enabled
    spinBoxEnabled := f.spinBoxEnabled }

/-- The `MainWindow` state the claims touch: the texts and values of the
configuration controls, the control-enabled flags, whether the plot timer is
running, the warnings shown so far, and the owned Worker. -/
structure Shell where
  portText : String
  speedText : String
  samples : Nat
  exportChecked : Bool
  sourceType : SourceType
  flags : UIFlags
  timerActive : Bool
  warnings : List String
  worker : Worker
deriving Repr, DecidableEq

/-- The warning `MainWindow.start` pops up when the worker fails to start
(mainWindow.py lines 66–68). -/
def warnMessage (port : String) : String :=
  "Selected port \"" ++ port ++ "\" is not available"

/-- A concrete shell state used to evaluate the theorems on explicit inputs:
port COM4, the given speed text, 500 samples, serial source, configuration
controls enabled, timer off, no warnings, freshly constructed worker. -/
def sampleShell (speed : String) : Shell :=
  { portText := "COM4"
    speedText := speed
    samples := 500
    exportChecked := false
    sourceType := SourceType.serial
    flags := ⟨true, true, true, true, true, false, true⟩
    timerActive := false
    warnings := []
    worker := Worker.initial }

namespace MainWindow

/-- Embeds `MainWindow.start` (mainWindow.py lines 50–68): reads the port text, the
speed text through `float()` (which raises `ValueError` on a non-literal),
the sample count and the export checkbox; replaces `self.worker` by a fresh
`Worker` built from them and starts it.  On success it starts the plot timer
and disables the configuration controls; on failure it pops up a warning
naming the selected port and changes nothing else.  The channel count the
session will use is the parameter `nch` (the Python worker derives it from
the incoming data, which the spec fixes per session). -/
def start (env : Env) (nch : Nat) (sh : Shell) : Except PyError Shell :=
  match parsePyFloat sh.speedText with
  | none => Except.error PyError.valueError
  | some speed =>
    let d : SourceDescriptor :=
      { type := sh.sourceType, endpoint := sh.portText, rate := speed }
    let p := Worker.start env Worker.initial d nch sh.samples sh.exportChecked
    if p.2 then
      Except.ok { sh with
        worker := p.1
        timerActive := true
        flags := enableUi false sh.flags }
    else
      Except.ok { sh with
        worker := p.1
        warnings := sh.warnings ++ [warnMessage sh.portText] }

/-- Embeds `MainWindow._update_sample_size` (mainWindow.py lines 134–142): on every
change of the spin box value, call `worker.reset_buffers` with the new value.
(The Python guard `if self.worker is not None` always holds: `__init__` and
`start` both assign a Worker.) -/
def updateSampleSize (sh : Shell) (v : Nat) : Shell :=
  { sh with samples := v, worker := Worker.resetBuffers sh.worker v }

/-- Embeds `MainWindow.stop` (mainWindow.py lines 70–79): stop the plot timer,
re-enable the configuration controls, stop the worker. -/
def stopShell (sh : Shell) : Shell :=
  { sh with
    timerActive := false
    flags := enableUi true sh.flags
    worker := Worker.stop sh.worker }

/-- The observable events of one `_update_plot` tick, in program order. -/
inductive PlotEvent where
  | consumeQueue
  | clearPlot
  | readBuffers (idx : Nat)
  | plotLine (idx : Nat)
deriving Repr, DecidableEq

/-- What one tick hands to the plot widget: the time axis and one value
series per line. -/
structure PlotData where
  times : List Int
  lines : List (List Int)
deriving Repr, DecidableEq

/-- Embeds `MainWindow._update_plot` (mainWindow.py lines 144–157), as state
transformer plus rendered data plus event trace: first
`self.worker.consume_queue()`, then `self._plt.clear()`, then for each line
index read the time buffer and that line's value buffer and plot them. -/
def updatePlot (sh : Shell) : Shell × PlotData × List PlotEvent :=
  let w := Worker.consumeQueue sh.worker
  ({ sh with worker := w },
   { times := Worker.readTime w
     lines := (List.range (Worker.getLines w)).map (Worker.readChannel w) },
   PlotEvent.consumeQueue :: PlotEvent.clearPlot ::
     (List.range (Worker.getLines w)).flatMap
       (fun i => [PlotEvent.readBuffers i, PlotEvent.plotLine i]))

end MainWindow

/- ------------------------------------------------------------------ -/
/- Theorems.                                                          -/
/- ------------------------------------------------------------------ -/

theorem lastN_nil (n : Nat) : lastN n ([] : List α) = [] := by
  simp [lastN]

theorem lastN_length (n : Nat) (l : List α) : (lastN n l).length = min n l.length := by
  simp [lastN]

theorem lastN_length_le (n : Nat) (l : List α) : (lastN n l).length ≤ n := by
  simp [lastN_length]

/-- Taking the last `n` of a list whose front has already been trimmed to its
last `n` elements gives the same result as trimming the untrimmed list. -/
theorem lastN_lastN_append (n : Nat) (l l' : List α) :
    lastN n (lastN n l ++ l') = lastN n (l ++ l') := by
  unfold lastN
  rw [List.reverse_append, List.reverse_reverse, List.reverse_append]
  congr 1
  rw [List.take_append_eq_append_take, List.take_take,
    Nat.min_eq_left (Nat.sub_le _ _), List.take_append_eq_append_take]

theorem lastN_eq_drop (n : Nat) (l : List α) :
    lastN n l = l.drop (l.length - n) := by
  unfold lastN
  rw [List.reverse_take, List.reverse_reverse, List.length_reverse]

theorem RingBuffer.push_capacity (b : RingBuffer α) (v : α) :
    (b.push v).capacity = b.capacity := rfl

theorem RingBuffer.pushAll_capacity (b : RingBuffer α) (vs : List α) :
    (b.pushAll vs).capacity = b.capacity := by
  induction vs generalizing b with
  | nil => rfl
  | cons v vs ih => simpa [pushAll, List.foldl_cons, push] using ih (b.push v)

/-- Core window invariant: a buffer whose contents are the window over some
history `acc` stays a window over the extended history after any further
pushes. -/
theorem RingBuffer.pushAll_data (c : Nat) (acc vs : List α) (b : RingBuffer α)
    (hcap : b.capacity = c) (hdata : b.data = lastN c acc) :
    (b.pushAll vs).data = lastN c (acc ++ vs) := by
  induction vs generalizing b acc with
  | nil => simpa [pushAll] using hdata
  | cons v vs ih =>
    have hstep : (b.push v).data = lastN c (acc ++ [v]) := by
      rw [push, hcap, hdata, lastN_lastN_append]
    have := ih (acc ++ [v]) (b.push v) (by rw [push_capacity, hcap]) hstep
    simpa [pushAll, List.foldl_cons, List.append_assoc] using this

theorem RingBuffer.pushAll_empty_data (c : Nat) (vs : List α) :
    ((RingBuffer.empty c : RingBuffer α).pushAll vs).data = lastN c vs := by
  simpa using RingBuffer.pushAll_data c [] vs (RingBuffer.empty c) rfl
    (by simp [RingBuffer.empty, lastN_nil])

/-- C2: for every capacity `c > 0` and every sequence of pushed values,
`read` has length at most `c`, and once at least `c` values have been pushed,
`read` is exactly the most recent `c` values in arrival order
(oldest-to-newest). -/
theorem C2_ring_buffer_window (c : Nat) (_hc : 0 < c) (vs : List Int) :
    ((RingBuffer.empty c).pushAll vs).read.length ≤ c ∧
      (c ≤ vs.length →
        ((RingBuffer.empty c).pushAll vs).read = vs.drop (vs.length - c)) := by
  refine ⟨?_, fun _ => ?_⟩
  · rw [RingBuffer.read, RingBuffer.pushAll_empty_data]
    exact lastN_length_le c vs
  · rw [RingBuffer.read, RingBuffer.pushAll_empty_data, lastN_eq_drop]

/-- Witness for C2 at capacity 3 and five pushed values. -/
theorem C2_ring_buffer_window_witness :
    0 < 3 ∧
      (((RingBuffer.empty 3).pushAll [10, 20, 30, 40, 50]).read.length ≤ 3 ∧
        (3 ≤ ([10, 20, 30, 40, 50] : List Int).length →
          ((RingBuffer.empty 3).pushAll [10, 20, 30, 40, 50]).read =
            ([10, 20, 30, 40, 50] : List Int).drop
              (([10, 20, 30, 40, 50] : List Int).length - 3))) :=
  ⟨by decide, C2_ring_buffer_window 3 (by decide) [10, 20, 30, 40, 50]⟩

theorem getD_replicate (n j : Nat) (a e : α) (h : j < n) :
    (List.replicate n a).getD j e = a := by
  induction n generalizing j with
  | zero => exact absurd h (Nat.not_lt_zero j)
  | succ n ih =>
    cases j with
    | zero => rfl
    | succ j => exact ih j (Nat.lt_of_succ_lt_succ h)

theorem pushValues_length (bs : List (RingBuffer Int)) (vs : List Int) :
    (pushValues bs vs).length = bs.length := by
  induction bs generalizing vs with
  | nil => cases vs <;> rfl
  | cons b bs ih =>
    cases vs with
    | nil => rfl
    | cons v vs => simp [pushValues, ih]

theorem pushValues_getD (bs : List (RingBuffer Int)) (vs : List Int)
    (hlen : vs.length = bs.length) (j : Nat) (hj : j < bs.length) :
    (pushValues bs vs).getD j (RingBuffer.empty 0) =
      (bs.getD j (RingBuffer.empty 0)).push (vs.getD j 0) := by
  induction bs generalizing vs j with
  | nil => exact absurd hj (by simp)
  | cons b bs ih =>
    cases vs with
    | nil => simp at hlen
    | cons v vs =>
      cases j with
      | zero => rfl
      | succ j =>
        have : vs.length = bs.length := by simpa using hlen
        simpa [pushValues, List.getD] using
          ih vs this j (Nat.lt_of_succ_lt_succ (by simpa using hj))

theorem Worker.applySample_queue (w : Worker) (s : SampleTuple) :
    (Worker.applySample w s).queue = w.queue := rfl

theorem Worker.foldl_applySample_queue (q : List SampleTuple) (w : Worker) :
    (q.foldl Worker.applySample w).queue = w.queue := by
  induction q generalizing w with
  | nil => rfl
  | cons s q ih => simpa [List.foldl_cons] using ih (Worker.applySample w s)

/-- One drained tuple with one value per channel extends the window each
buffer holds. -/
theorem BufInv.applySample (c nch : Nat) (w : Worker) (log : List SampleTuple)
    (s : SampleTuple) (hinv : BufInv c nch w log) (hs : s.values.length = nch) :
    BufInv c nch (Worker.applySample w s) (log ++ [s]) := by
  obtain ⟨htc, htd, hvl, hch⟩ := hinv
  refine ⟨htc, ?_, ?_, ?_⟩
  · show (w.timeBuffer.push s.time).data = _
    rw [RingBuffer.push, htc, htd, lastN_lastN_append]
    simp
  · show (pushValues w.valueBuffers s.values).length = nch
    rw [pushValues_length, hvl]
  · intro j hj
    have hlen : s.values.length = w.valueBuffers.length := by rw [hs, hvl]
    have hj' : j < w.valueBuffers.length := by rw [hvl]; exact hj
    have hgetD : s.values.getD j 0 = (fun t => t.values.getD j 0) s := rfl
    obtain ⟨hcap, hdat⟩ := hch j hj
    constructor
    · show ((pushValues w.valueBuffers s.values).getD j (RingBuffer.empty 0)).capacity = c
      rw [pushValues_getD _ _ hlen j hj', RingBuffer.push_capacity, hcap]
    · show ((pushValues w.valueBuffers s.values).getD j (RingBuffer.empty 0)).data = _
      rw [pushValues_getD _ _ hlen j hj', RingBuffer.push, hcap, hdat,
        lastN_lastN_append]
      simp

/-- Draining a whole queue of well-formed tuples extends the window by the
queue, in order. -/
theorem BufInv.foldl_applySample (c nch : Nat) (q : List SampleTuple)
    (w : Worker) (log : List SampleTuple) (hinv : BufInv c nch w log)
    (hq : ∀ s ∈ q, s.values.length = nch) :
    BufInv c nch (q.foldl Worker.applySample w) (log ++ q) := by
  induction q generalizing w log with
  | nil => simpa using hinv
  | cons s q ih =>
    have hstep := BufInv.applySample c nch w log s hinv (hq s (by simp))
    have := ih (Worker.applySample w s) (log ++ [s]) hstep
      (fun t ht => hq t (by simp [ht]))
    simpa [List.foldl_cons, List.append_assoc] using this

/-- Invariance under queue changes: `BufInv` only depends on the buffers, so they preserve
it. -/
theorem BufInv.queue_irrelevant (c nch : Nat) (w : Worker)
    (log : List SampleTuple) (q : List SampleTuple) (hinv : BufInv c nch w log) :
    BufInv c nch { w with queue := q } log := hinv

/-- The main simulation invariant for the producer/consumer interaction: over
any interleaving, the drained log and the residual queue partition the pushed
tuples in order, and the buffers hold the window over the drained log. -/
theorem runOps_inv (c nch : Nat) (ops : List Op) (w : Worker)
    (log : List SampleTuple) (hbuf : BufInv c nch w log)
    (hq : ∀ s ∈ w.queue, s.values.length = nch)
    (hops : ∀ s ∈ pushesOf ops, s.values.length = nch) :
    BufInv c nch (runOps w log ops).1 (runOps w log ops).2 ∧
      (∀ s ∈ (runOps w log ops).1.queue, s.values.length = nch) ∧
      (runOps w log ops).2 ++ (runOps w log ops).1.queue =
        (log ++ w.queue) ++ pushesOf ops := by
  induction ops generalizing w log with
  | nil => exact ⟨hbuf, hq, by simp [runOps, pushesOf]⟩
  | cons op ops ih =>
    cases op with
    | push s =>
      have hs : s.values.length = nch := hops s (by simp [pushesOf])
      have hq' : ∀ t ∈ (w.enqueue s).queue, t.values.length = nch := by
        intro t ht
        rw [Worker.enqueue] at ht
        simp only [List.mem_append, List.mem_singleton] at ht
        rcases ht with h | h
        · exact hq t h
        · subst h; exact hs
      have hbuf' : BufInv c nch (w.enqueue s) log := hbuf
      have := ih (w.enqueue s) log hbuf' hq'
        (fun t ht => hops t (by simp [pushesOf, ht]))
      refine ⟨this.1, this.2.1, ?_⟩
      have hstep : runOps w log (Op.push s :: ops) = runOps (w.enqueue s) log ops := rfl
      rw [hstep, this.2.2]
      simp [Worker.enqueue, pushesOf, List.append_assoc]
    | drain =>
      have hbuf' : BufInv c nch (Worker.drain w).1 (log ++ w.queue) := by
        show BufInv c nch (w.queue.foldl Worker.applySample { w with queue := [] }) _
        exact BufInv.foldl_applySample c nch w.queue { w with queue := [] } log
          (BufInv.queue_irrelevant c nch w log [] hbuf) hq
      have hq' : ∀ t ∈ (Worker.drain w).1.queue, t.values.length = nch := by
        intro t ht
        rw [Worker.drain] at ht
        simp only at ht
        rw [Worker.foldl_applySample_queue] at ht
        simp at ht
      have := ih (Worker.drain w).1 (log ++ w.queue) hbuf' hq'
        (fun t ht => hops t (by simp [pushesOf, ht]))
      refine ⟨this.1, this.2.1, ?_⟩
      have hqueue : (Worker.drain w).1.queue = [] := by
        rw [Worker.drain]
        simpa using Worker.foldl_applySample_queue w.queue { w with queue := [] }
      have hstep : runOps w log (Op.drain :: ops) =
          runOps (Worker.drain w).1 (log ++ w.queue) ops := rfl
      rw [hstep, this.2.2, hqueue]
      simp [pushesOf, List.append_assoc]

/-- The buffer invariant holds at the start of a session. -/
theorem BufInv.init (c nch : Nat) : BufInv c nch (initWorker c nch) [] := by
  refine ⟨rfl, by simp [initWorker, RingBuffer.empty, lastN_nil], by simp [initWorker], ?_⟩
  intro j hj
  have hrep : (initWorker c nch).valueBuffers.getD j (RingBuffer.empty 0) =
      RingBuffer.empty c := by
    simpa [initWorker] using
      getD_replicate nch j (RingBuffer.empty c) (RingBuffer.empty 0) hj
  rw [hrep]
  exact ⟨rfl, by simp [RingBuffer.empty, lastN_nil]⟩

/-- C1 (amended): for any interleaving of pushes and drains on a fresh
session (window `c`, `nch` channels, each pushed tuple carrying one value per
channel), the tuples drained into the Ring Buffers followed by the tuples
still queued are exactly the pushed tuples, in arrival order, with no
duplication and no loss anywhere in the handoff path; and after the drains
the Ring Buffers hold the sliding window of the most recent `c` drained
tuples in arrival order (the timestamp buffer their timestamps, channel `j`'s
buffer their `j`-th values) — tuples older than the window have been evicted,
which is the one deviation from the claim as stated. -/
theorem C1_handoff_roundtrip (c nch : Nat) (ops : List Op)
    (hops : ∀ s ∈ pushesOf ops, s.values.length = nch) :
    (runOps (initWorker c nch) [] ops).2 ++
        (runOps (initWorker c nch) [] ops).1.queue = pushesOf ops ∧
      Worker.readTime (runOps (initWorker c nch) [] ops).1 =
        lastN c ((runOps (initWorker c nch) [] ops).2.map SampleTuple.time) ∧
      ∀ j, j < nch →
        Worker.readChannel (runOps (initWorker c nch) [] ops).1 j =
          lastN c ((runOps (initWorker c nch) [] ops).2.map
            (fun s => s.values.getD j 0)) := by
  have h := runOps_inv c nch ops (initWorker c nch) [] (BufInv.init c nch)
    (by intro s hs; simp [initWorker] at hs) hops
  refine ⟨by simpa [initWorker] using h.2.2, h.1.2.1, fun j hj => (h.1.2.2.2 j hj).2⟩

/-- Witness for C1: a two-channel window-2 session over the interleaving
push, drain, push, push, drain. -/
theorem C1_handoff_roundtrip_witness :
    (∀ s ∈ pushesOf [Op.push ⟨0, [1, 2]⟩, Op.drain, Op.push ⟨1, [3, 4]⟩,
        Op.push ⟨2, [5, 6]⟩, Op.drain], s.values.length = 2) ∧
      (runOps (initWorker 2 2) [] [Op.push ⟨0, [1, 2]⟩, Op.drain,
          Op.push ⟨1, [3, 4]⟩, Op.push ⟨2, [5, 6]⟩, Op.drain]).2 ++
        (runOps (initWorker 2 2) [] [Op.push ⟨0, [1, 2]⟩, Op.drain,
          Op.push ⟨1, [3, 4]⟩, Op.push ⟨2, [5, 6]⟩, Op.drain]).1.queue =
        pushesOf [Op.push ⟨0, [1, 2]⟩, Op.drain, Op.push ⟨1, [3, 4]⟩,
          Op.push ⟨2, [5, 6]⟩, Op.drain] ∧
      Worker.readTime (runOps (initWorker 2 2) [] [Op.push ⟨0, [1, 2]⟩, Op.drain,
          Op.push ⟨1, [3, 4]⟩, Op.push ⟨2, [5, 6]⟩, Op.drain]).1 =
        lastN 2 ((runOps (initWorker 2 2) [] [Op.push ⟨0, [1, 2]⟩, Op.drain,
          Op.push ⟨1, [3, 4]⟩, Op.push ⟨2, [5, 6]⟩, Op.drain]).2.map SampleTuple.time) ∧
      Worker.readChannel (runOps (initWorker 2 2) [] [Op.push ⟨0, [1, 2]⟩, Op.drain,
          Op.push ⟨1, [3, 4]⟩, Op.push ⟨2, [5, 6]⟩, Op.drain]).1 0 =
        lastN 2 ((runOps (initWorker 2 2) [] [Op.push ⟨0, [1, 2]⟩, Op.drain,
          Op.push ⟨1, [3, 4]⟩, Op.push ⟨2, [5, 6]⟩, Op.drain]).2.map
          (fun s => s.values.getD 0 0)) := by
  have h := C1_handoff_roundtrip 2 2 [Op.push ⟨0, [1, 2]⟩, Op.drain,
    Op.push ⟨1, [3, 4]⟩, Op.push ⟨2, [5, 6]⟩, Op.drain] (by decide)
  exact ⟨by decide, h.1, h.2.1, h.2.2 0 (by decide)⟩

/-- Counterexample to C1 as stated: with window size 1, after pushing two
tuples and draining both, the timestamp buffer does not hold both pushed
tuples — the older one was evicted by the sliding window, so a tuple is
missing from the Ring Buffers even though every push was drained. -/
theorem C1_counterexample :
    ¬ Worker.readTime (runOps (initWorker 1 1) []
        [Op.push ⟨0, [1]⟩, Op.push ⟨1, [2]⟩, Op.drain]).1 =
      (pushesOf [Op.push ⟨0, [1]⟩, Op.push ⟨1, [2]⟩, Op.drain]).map
        SampleTuple.time := by
  decide

/-- C3: `start()` on a Worker whose session is Running fails, returning
`false` and the very same Worker — no field of the running session is
modified. -/
theorem C3_start_while_running (env : Env) (w : Worker) (d : SourceDescriptor)
    (nch wsize : Nat) (exp : Bool) (h : w.status = Status.Running) :
    Worker.start env w d nch wsize exp = (w, false) := by
  simp [Worker.start, h]

/-- Witness for C3: a running two-channel session rejects a fresh start. -/
theorem C3_start_while_running_witness :
    (initWorker 3 2).status = Status.Running ∧
      Worker.start ⟨["COM3"], [(9600 : Rat)]⟩ (initWorker 3 2)
        ⟨SourceType.serial, "COM3", (9600 : Rat)⟩ 2 3 false =
        (initWorker 3 2, false) :=
  ⟨rfl, C3_start_while_running _ _ _ _ _ _ rfl⟩

/-- C4: a `drain()` immediately following a `drain()`, with no pushes in
between, returns the empty sequence — draining empties the queue, in every
Worker state. -/
theorem C4_second_drain_empty (w : Worker) :
    (Worker.drain (Worker.drain w).1).2 = [] := by
  show (Worker.drain w).1.queue = []
  rw [Worker.drain]
  simpa using Worker.foldl_applySample_queue w.queue { w with queue := [] }

/-- C5: `stop()` on an Idle Worker is a no-op — it returns the same state —
and any number of repeated `stop()` calls leaves the Worker exactly where a
single call (indeed, no call) does. -/
theorem C5_stop_idle_noop (w : Worker) (h : w.status = Status.Idle) (n : Nat) :
    Worker.stop w = w ∧ Worker.stop^[n] w = w := by
  have h1 : Worker.stop w = w := by simp [Worker.stop, h]
  refine ⟨h1, ?_⟩
  induction n with
  | zero => rfl
  | succ n ih => rw [Function.iterate_succ_apply, h1, ih]

/-- Witness for C5: five stops on the freshly constructed (Idle) Worker. -/
theorem C5_stop_idle_noop_witness :
    Worker.initial.status = Status.Idle ∧
      (Worker.stop Worker.initial = Worker.initial ∧
        Worker.stop^[5] Worker.initial = Worker.initial) :=
  ⟨rfl, C5_stop_idle_noop Worker.initial rfl 5⟩

/-- C6: the spec's concrete scenario — two channels, window 3; push
(t=0,[1,2]), (t=1,[3,4]), (t=2,[5,6]), (t=3,[7,8]); drain everything; then
channel 0 reads [3,5,7] and the time buffer reads [1,2,3]. -/
theorem C6_scenario :
    Worker.readChannel (runOps (initWorker 3 2) []
        [Op.push ⟨0, [1, 2]⟩, Op.push ⟨1, [3, 4]⟩, Op.push ⟨2, [5, 6]⟩,
          Op.push ⟨3, [7, 8]⟩, Op.drain]).1 0 = [3, 5, 7] ∧
      Worker.readTime (runOps (initWorker 3 2) []
        [Op.push ⟨0, [1, 2]⟩, Op.push ⟨1, [3, 4]⟩, Op.push ⟨2, [5, 6]⟩,
          Op.push ⟨3, [7, 8]⟩, Op.drain]).1 = [1, 2, 3] := by
  decide

/-- C7: on every plot-timer tick, `_update_plot` first invokes the Worker's
drain (`consume_queue`) and only afterwards reads the time buffer and each
channel's value buffer: the event trace starts with the drain, the drain
occurs nowhere later in the trace, and the rendered data is read from the
post-drain worker state. -/
theorem C7_tick_drains_before_reading (sh : Shell) :
    (MainWindow.updatePlot sh).2.2 =
        MainWindow.PlotEvent.consumeQueue :: (MainWindow.updatePlot sh).2.2.tail ∧
      (∀ e ∈ (MainWindow.updatePlot sh).2.2.tail,
        e ≠ MainWindow.PlotEvent.consumeQueue) ∧
      (MainWindow.updatePlot sh).2.1.times =
        Worker.readTime (Worker.consumeQueue sh.worker) ∧
      (MainWindow.updatePlot sh).2.1.lines =
        (List.range (Worker.getLines (Worker.consumeQueue sh.worker))).map
          (Worker.readChannel (Worker.consumeQueue sh.worker)) := by
  refine ⟨rfl, ?_, rfl, rfl⟩
  intro e he
  simp only [MainWindow.updatePlot, List.tail_cons, List.mem_cons,
    List.mem_flatMap, List.mem_singleton] at he
  rcases he with h | ⟨i, _, h⟩
  · subst h; simp
  · simp only [List.mem_cons, List.mem_singleton, List.not_mem_nil,
      or_false] at h
    rcases h with h | h <;> subst h <;> simp

/-- C8: the shell's Start handler starts the plot timer and disables the
configuration controls exactly when the Worker's start succeeds; when it
fails, the handler appends a user-visible warning that names the selected
port and leaves the timer and the control flags untouched. -/
theorem C8_start_failure_surfaced (env : Env) (nch : Nat) (sh : Shell)
    (speed : Rat) (hp : parsePyFloat sh.speedText = some speed) :
    ((Worker.start env Worker.initial
        ⟨sh.sourceType, sh.portText, speed⟩ nch sh.samples sh.exportChecked).2 = false →
      MainWindow.start env nch sh = Except.ok { sh with
        worker := (Worker.start env Worker.initial
          ⟨sh.sourceType, sh.portText, speed⟩ nch sh.samples sh.exportChecked).1
        warnings := sh.warnings ++ [warnMessage sh.portText] } ∧
      warnMessage sh.portText =
        "Selected port \"" ++ sh.portText ++ "\" is not available") ∧
    ((Worker.start env Worker.initial
        ⟨sh.sourceType, sh.portText, speed⟩ nch sh.samples sh.exportChecked).2 = true →
      MainWindow.start env nch sh = Except.ok { sh with
        worker := (Worker.start env Worker.initial
          ⟨sh.sourceType, sh.portText, speed⟩ nch sh.samples sh.exportChecked).1
        timerActive := true
        flags := enableUi false sh.flags }) := by
  constructor
  · intro hf
    refine ⟨?_, rfl⟩
    simp [MainWindow.start, hp, hf]
  · intro ht
    simp [MainWindow.start, hp, ht]

/-- Witness for C8: with no attached endpoints the worker start fails, the
timer stays off, the flags stay as they were, and the warning names COM4. -/
theorem C8_start_failure_surfaced_witness :
    parsePyFloat (sampleShell "9600").speedText = some (9600 : Rat) ∧
      (MainWindow.start ⟨[], []⟩ 2 (sampleShell "9600") =
        Except.ok { sampleShell "9600" with
          worker := (Worker.start ⟨[], []⟩ Worker.initial
            ⟨(sampleShell "9600").sourceType, (sampleShell "9600").portText, (9600 : Rat)⟩
            2 (sampleShell "9600").samples (sampleShell "9600").exportChecked).1
          warnings := (sampleShell "9600").warnings ++
            [warnMessage (sampleShell "9600").portText] } ∧
        warnMessage (sampleShell "9600").portText =
          "Selected port \"" ++ (sampleShell "9600").portText ++ "\" is not available") := by
  have hp : parsePyFloat (sampleShell "9600").speedText = some (9600 : Rat) := by decide
  exact ⟨hp, (C8_start_failure_surfaced ⟨[], []⟩ 2 (sampleShell "9600") 9600 hp).1 (by decide)⟩

/-- C9: every change of the sample-size spin box resets the Worker's buffers
to the new size — regardless of the session status, which the resize leaves
unchanged — and `_enable_ui` never touches the spin box's enabled flag, so
the control stays usable while Running. -/
theorem C9_resize_in_any_state (sh : Shell) (v : Nat) :
    (MainWindow.updateSampleSize sh v).worker = Worker.resetBuffers sh.worker v ∧
      (MainWindow.updateSampleSize sh v).worker.status = sh.worker.status ∧
      (MainWindow.updateSampleSize sh v).worker.timeBuffer = RingBuffer.empty v ∧
      (∀ b ∈ (MainWindow.updateSampleSize sh v).worker.valueBuffers,
        b = RingBuffer.empty v) ∧
      ∀ e f, (enableUi e f).spinBoxEnabled = f.spinBoxEnabled := by
  refine ⟨rfl, rfl, rfl, ?_, fun e f => rfl⟩
  intro b hb
  simp only [MainWindow.updateSampleSize, Worker.resetBuffers,
    List.mem_map] at hb
  exact hb.choose_spec.2.symm

/-- C10: when the speed combo box holds the empty string, clicking Start
raises an uncaught `ValueError` from `float("")` before any Worker session is
started — `MainWindow.start` is not total over all reachable UI states. -/
theorem C10_start_value_error_on_empty_speed (env : Env) (nch : Nat)
    (sh : Shell) (h : sh.speedText = "") :
    MainWindow.start env nch sh = Except.error PyError.valueError := by
  have hp : parsePyFloat sh.speedText = none := by rw [h]; rfl
  simp [MainWindow.start, hp]

/-- Witness for C10: the concrete shell whose speed text is empty. -/
theorem C10_start_value_error_on_empty_speed_witness :
    (sampleShell "").speedText = "" ∧
      MainWindow.start ⟨[], []⟩ 2 (sampleShell "") =
        Except.error PyError.valueError :=
  ⟨rfl, C10_start_value_error_on_empty_speed ⟨[], []⟩ 2 (sampleShell "") rfl⟩

end RTGraph
